import Mathlib

/-!
# The ggwave JNI bridge (`native_jni.cpp`, `native_jni.h`)

A shallow embedding of the four JNI entry points `ggwaveInit`, `ggwaveEncode`,
`ggwaveDeinit` and `ggwaveDecode` (in the source each name carries the prefix
`Java_com_example_remotecontrolprojector_dataOverSound_Ggwave_`) and of the
three globals they share, `g_ggwave`, `p_ggwave` and `max_payload_size`.

The wrapped modem library (`ggwave/ggwave.h`) is third-party code: it is taken
as a parameter (`GGWave`), a deterministic state transformer for each of its
entry points.  The JNI string functions are modelled after the JNI
specification (strings are UTF-16 code units, `GetStringUTFChars` and
`NewStringUTF` use modified UTF-8).

Undefined behaviour of the C++ code is made explicit as a `Fault`: an entry
point that can run into it returns `Except Fault _`, and a sequence of calls
stops at the first fault.  Logging (`LOGD`, `LOGE`) is left out.
-/

namespace GgwaveBridge

/-! ## Data model -/

/-- One byte of native memory or of a `jbyteArray`, as its unsigned value `0..255`. -/
abbrev Byte := Nat

/-- A `jstring`: its UTF-16 code units, each `0..0xFFFF`. -/
abbrev JString := List Nat

/-- A `jfloat`, carried as its 32-bit pattern; the bridge never computes with it. -/
abbrev JFloat := Nat

/-- The fields of `ggwave_Parameters` (all the bridge does is copy them). -/
structure ggwave_Parameters where
  payloadLength : Int
  sampleRateInp : JFloat
  sampleRateOut : JFloat
  sampleRate : JFloat
  samplesPerFrame : Int
  soundMarkerThreshold : JFloat
  sampleFormatInp : Int
  sampleFormatOut : Int
  operatingMode : Int
  deriving DecidableEq, Repr

/-- The value of `ggwave_Parameters p = {0}` and of `p = {}`: every field zero. -/
def zeroParameters : ggwave_Parameters :=
  ⟨0, 0, 0, 0, 0, 0, 0, 0, 0⟩

/-- What one call into the library gives back: its `int` result, the bytes it
stored at the start of the output buffer it was handed, and its next state. -/
structure Outcome (σ : Type) where
  ret : Int
  stored : List Byte
  next : σ

/-- The wrapped library, over its own state `σ`.

* `ggwave_encode instance payloadBuffer payloadSize protocolId volume hasBuffer query`:
  `payloadBuffer` is the memory `text` points to, `hasBuffer` is false when
  `waveformBuffer` is `nullptr`.
* `ggwave_decode instance waveformBuffer waveformSize`. -/
structure GGWave (σ : Type) where
  getDefaultParameters : ggwave_Parameters
  ggwave_init : ggwave_Parameters → σ → Int × σ
  ggwave_free : Int → σ → σ
  ggwave_encode : Int → List Byte → Int → Int → Int → Bool → Int → σ → Outcome σ
  ggwave_decode : Int → List Byte → Int → σ → Outcome σ

/-- Everything outside the bridge: the library, the contents of storage that
`new char[n]` leaves uninitialised (cell by cell), and whether
`GetByteArrayElements` returns `nullptr` for an array. -/
structure Platform (σ : Type) where
  lib : GGWave σ
  indeterminate : Nat → Byte
  elementsUnavailable : List Byte → Bool

/-- A call the bridge made into the library, with its result. -/
inductive LibCall where
  | init (parameters : ggwave_Parameters) (ret : Int)
  | free (inst : Int)
  | encode (inst : Int) (payloadSize : Int) (query : Int) (ret : Int)
  | decode (inst : Int) (waveformSize : Int) (ret : Int)
  deriving DecidableEq, Repr

/-- The globals of `native_jni.h`, the library's state, and the record of the
calls made into the library (newest first). -/
structure State (σ : Type) where
  g_ggwave : Int
  p_ggwave : ggwave_Parameters
  max_payload_size : Int
  lib : σ
  calls : List LibCall

/-- The globals as `native_jni.h` initialises them. -/
def initialState {σ : Type} (lib0 : σ) : State σ :=
  { g_ggwave := -1, p_ggwave := zeroParameters, max_payload_size := 20,
    lib := lib0, calls := [] }

/-- Undefined behaviour the C++ code can run into. -/
inductive Fault where
  | arrayBound      -- `char outputBuffer[n]` with `n <= 0`
  | writePastEnd    -- the library stored more bytes than the buffer holds
  | readPastEnd     -- `NewStringUTF` found no zero byte inside the buffer
  | malformedUtf8   -- `NewStringUTF` on bytes that are not modified UTF-8
  deriving DecidableEq, Repr

/-! ## JNI strings and native buffers -/

/-- Modified UTF-8 of one UTF-16 code unit (JNI specification). -/
def encodeUnit (u : Nat) : List Byte :=
  if 1 ≤ u ∧ u ≤ 0x7F then [u]
  else if u ≤ 0x7FF then [0xC0 + u / 64, 0x80 + u % 64]
  else [0xE0 + u / 4096, 0x80 + (u / 64) % 64, 0x80 + u % 64]

/-- Modified UTF-8 of a string, without terminator. -/
def modifiedUtf8 : JString → List Byte
  | [] => []
  | u :: us => encodeUnit u ++ modifiedUtf8 us

/-- The buffer of `env->GetStringUTFChars(message, nullptr)`: the zero-terminated
modified UTF-8 of the message. -/
def GetStringUTFChars (message : JString) : List Byte :=
  modifiedUtf8 message ++ [0]

/-- The value of `env->GetStringLength(message)`: the number of UTF-16 code units. -/
def GetStringLength (message : JString) : Int :=
  message.length

/-- The C `strlen`: the number of bytes before the first zero byte. -/
def strlen (text : List Byte) : Nat :=
  (text.takeWhile (fun b => b != 0)).length

/-- A continuation byte `10xxxxxx`. -/
def isContinuation (b : Byte) : Bool :=
  0x80 ≤ b && b < 0xC0

/-- Decoding of modified UTF-8 (one-, two- and three-byte forms); `none` when
the bytes are not modified UTF-8. -/
def decodeModifiedUtf8 : List Byte → Option JString
  | [] => some []
  | b1 :: rest =>
    if 1 ≤ b1 ∧ b1 < 0x80 then (decodeModifiedUtf8 rest).map (fun s => b1 :: s)
    else
      match rest with
      | [] => none
      | b2 :: rest2 =>
        if 0xC0 ≤ b1 ∧ b1 < 0xE0 ∧ isContinuation b2 then
          (decodeModifiedUtf8 rest2).map (fun s => ((b1 - 0xC0) * 64 + (b2 - 0x80)) :: s)
        else
          match rest2 with
          | [] => none
          | b3 :: rest3 =>
            if 0xE0 ≤ b1 ∧ b1 < 0xF0 ∧ isContinuation b2 ∧ isContinuation b3 then
              (decodeModifiedUtf8 rest3).map
                (fun s => ((b1 - 0xE0) * 4096 + (b2 - 0x80) * 64 + (b3 - 0x80)) :: s)
            else none

/-- The bytes of a buffer before its first zero byte; `none` when the buffer
holds no zero byte (a C-string read would run past its end). -/
def cString : List Byte → Option (List Byte)
  | [] => none
  | b :: rest => if b = 0 then some [] else (cString rest).map (fun bs => b :: bs)

/-- The string of `env->NewStringUTF(buffer)`: reads up to the first zero byte and
decodes. -/
def NewStringUTF (buffer : List Byte) : Except Fault JString :=
  match cString buffer with
  | none => .error Fault.readPastEnd
  | some bytes =>
    match decodeModifiedUtf8 bytes with
    | none => .error Fault.malformedUtf8
    | some s => .ok s

/-- The buffer after the library stored `written` at its start; `none` when
`written` does not fit. -/
def storeBytes (buffer written : List Byte) : Option (List Byte) :=
  if written.length ≤ buffer.length then some (written ++ buffer.drop written.length)
  else none

/-- The array of `new char[n]`: `n` cells of indeterminate content. -/
def newCharArray {σ : Type} (P : Platform σ) (n : Nat) : List Byte :=
  (List.range n).map P.indeterminate

/-! ## The four entry points -/

/-- The entry point `ggwaveInit(payload_size, sample_rate, sample_format)`. -/
def ggwaveInit {σ : Type} (P : Platform σ) (payload_size : Int) (sample_rate : JFloat)
    (sample_format : Int) (s : State σ) : Int × State σ :=
  let defaultParameters : ggwave_Parameters :=
    { P.lib.getDefaultParameters with
      payloadLength := payload_size
      sampleRateInp := sample_rate
      sampleRateOut := sample_rate
      sampleFormatInp := sample_format
      sampleFormatOut := sample_format }
  let r := P.lib.ggwave_init defaultParameters s.lib
  let s1 : State σ :=
    { g_ggwave := r.1, p_ggwave := defaultParameters, max_payload_size := payload_size,
      lib := r.2, calls := LibCall.init defaultParameters r.1 :: s.calls }
  if r.1 = -1 then (-1, s1) else (0, s1)

/-- The entry point `ggwaveEncode(message, protocol, volume)`; `none` is `nullptr`. -/
def ggwaveEncode {σ : Type} (P : Platform σ) (message : JString) (protocol volume : Int)
    (s : State σ) : Except Fault (Option (List Byte) × State σ) :=
  if s.g_ggwave = -1 then .ok (none, s)
  else
    let text := GetStringUTFChars message
    let q := P.lib.ggwave_encode s.g_ggwave text (GetStringLength message) protocol volume
      false 1 s.lib
    let number := q.ret
    let s1 : State σ :=
      { s with lib := q.next
               calls := LibCall.encode s.g_ggwave (GetStringLength message) 1 number :: s.calls }
    if number ≤ 0 then .ok (none, s1)
    else
      let waveformBuffer := newCharArray P number.toNat
      let f := P.lib.ggwave_encode s.g_ggwave text (GetStringLength message) protocol volume
        true 0 s1.lib
      let encodedBytes := f.ret
      let s2 : State σ :=
        { s1 with lib := f.next
                  calls := LibCall.encode s.g_ggwave (GetStringLength message) 0 encodedBytes
                    :: s1.calls }
      match storeBytes waveformBuffer f.stored with
      | none => .error Fault.writePastEnd
      | some filled =>
        if encodedBytes ≠ number then .ok (none, s2)
        else .ok (some (filled.take number.toNat), s2)

/-- The entry point `ggwaveDeinit()`. -/
def ggwaveDeinit {σ : Type} (P : Platform σ) (s : State σ) : Int × State σ :=
  (0, { g_ggwave := -1, p_ggwave := zeroParameters, max_payload_size := s.max_payload_size,
        lib := P.lib.ggwave_free s.g_ggwave s.lib,
        calls := LibCall.free s.g_ggwave :: s.calls })

/-- The entry point `ggwaveDecode(audio_data, length)`; `none` is `nullptr`. -/
def ggwaveDecode {σ : Type} (P : Platform σ) (audio_data : List Byte) (length : Int)
    (s : State σ) : Except Fault (Option JString × State σ) :=
  if s.g_ggwave = -1 then .ok (none, s)
  else if P.elementsUnavailable audio_data then .ok (none, s)
  else
    let audioBuffer := audio_data
    if s.max_payload_size ≤ 0 then .error Fault.arrayBound
    else
      let outputBuffer := List.replicate s.max_payload_size.toNat (0 : Byte)
      let d := P.lib.ggwave_decode s.g_ggwave audioBuffer length s.lib
      let decodeResult := d.ret
      let s1 : State σ :=
        { s with lib := d.next
                 calls := LibCall.decode s.g_ggwave length decodeResult :: s.calls }
      match storeBytes outputBuffer d.stored with
      | none => .error Fault.writePastEnd
      | some written =>
        if 0 < decodeResult then
          match NewStringUTF written with
          | .error e => .error e
          | .ok str => .ok (some str, s1)
        else .ok (none, s1)

/-- The first library call of `ggwaveEncode`: the size query. -/
def sizeQuery {σ : Type} (P : Platform σ) (message : JString) (protocol volume : Int)
    (s : State σ) : Outcome σ :=
  P.lib.ggwave_encode s.g_ggwave (GetStringUTFChars message) (GetStringLength message)
    protocol volume false 1 s.lib

/-- The second library call of `ggwaveEncode`: the fill call, made on the
library state the size query left. -/
def fillCall {σ : Type} (P : Platform σ) (message : JString) (protocol volume : Int)
    (s : State σ) : Outcome σ :=
  P.lib.ggwave_encode s.g_ggwave (GetStringUTFChars message) (GetStringLength message)
    protocol volume true 0 (sizeQuery P message protocol volume s).next

/-- The library call of `ggwaveDecode`. -/
def decodeCall {σ : Type} (P : Platform σ) (audio_data : List Byte) (length : Int)
    (s : State σ) : Outcome σ :=
  P.lib.ggwave_decode s.g_ggwave audio_data length s.lib

/-- The state `ggwaveDecode` leaves once it has called the library. -/
def afterDecode {σ : Type} (P : Platform σ) (audio_data : List Byte) (length : Int)
    (s : State σ) : State σ :=
  { s with lib := (decodeCall P audio_data length s).next
           calls := LibCall.decode s.g_ggwave length (decodeCall P audio_data length s).ret
             :: s.calls }

/-- The value a call returned, without the state. -/
def returned {α σ : Type} (r : Except Fault (α × State σ)) : Except Fault α :=
  r.map Prod.fst

/-! ## Sequences of calls -/

/-- A call from the Java side. -/
inductive Call where
  | init (payload_size : Int) (sample_rate : JFloat) (sample_format : Int)
  | encode (message : JString) (protocol volume : Int)
  | decode (audio_data : List Byte) (length : Int)
  | deinit
  deriving DecidableEq, Repr

/-- What a call returned to the Java side. -/
inductive Ret where
  | status (code : Int)
  | waveform (bytes : Option (List Byte))
  | message (text : Option JString)
  deriving DecidableEq, Repr

/-- One call. -/
def step {σ : Type} (P : Platform σ) (c : Call) (s : State σ) :
    Except Fault (Ret × State σ) :=
  match c with
  | Call.init payload_size sample_rate sample_format =>
    let r := ggwaveInit P payload_size sample_rate sample_format s
    .ok (Ret.status r.1, r.2)
  | Call.encode message protocol volume =>
    match ggwaveEncode P message protocol volume s with
    | .error e => .error e
    | .ok r => .ok (Ret.waveform r.1, r.2)
  | Call.decode audio_data length =>
    match ggwaveDecode P audio_data length s with
    | .error e => .error e
    | .ok r => .ok (Ret.message r.1, r.2)
  | Call.deinit =>
    let r := ggwaveDeinit P s
    .ok (Ret.status r.1, r.2)

/-- The calls made so far with what each returned, newest first. -/
abbrev History := List (Call × Ret)

/-- Runs the calls in order from state `s` with history `h`; stops at a fault. -/
def runFrom {σ : Type} (P : Platform σ) : List Call → History → State σ →
    Except Fault (History × State σ)
  | [], h, s => .ok (h, s)
  | c :: cs, h, s =>
    match step P c s with
    | .error e => .error e
    | .ok r => runFrom P cs ((c, r.1) :: h) r.2

/-- Runs the calls from the initial state. -/
def run {σ : Type} (P : Platform σ) (lib0 : σ) (cs : List Call) :
    Except Fault (History × State σ) :=
  runFrom P cs [] (initialState lib0)

/-- Whether a `ggwaveInit` returned 0 since the start or the latest `ggwaveDeinit`. -/
def initSinceDeinit : History → Bool
  | [] => false
  | (Call.deinit, _) :: _ => false
  | (Call.init _ _ _, Ret.status 0) :: _ => true
  | _ :: h => initSinceDeinit h

/-- The `payload_size` argument of the latest `ggwaveInit`. -/
def latestInitPayload : History → Option Int
  | [] => none
  | (Call.init payload_size _ _, _) :: _ => some payload_size
  | _ :: h => latestInitPayload h

/-- The parameters handed to the latest `ggwave_init` that returned `inst`. -/
def createdWith (inst : Int) : List LibCall → Option ggwave_Parameters
  | [] => none
  | LibCall.init parameters ret :: rest =>
    if ret = inst then some parameters else createdWith inst rest
  | _ :: rest => createdWith inst rest

/-- The instances `ggwave_init` created that were not yet given to `ggwave_free`. -/
def liveInstances : List LibCall → List Int
  | [] => []
  | LibCall.init _ ret :: rest =>
    if ret = -1 then liveInstances rest else ret :: liveInstances rest
  | LibCall.free inst :: rest => (liveInstances rest).erase inst
  | _ :: rest => liveInstances rest

/-- The facts every initialised session keeps: a `ggwaveInit` returned 0 since
the start or the latest `ggwaveDeinit`, the buffer bound equals the payload
length in `p_ggwave`, those are the parameters the instance `g_ggwave` was
created with, and the bound is the `payload_size` of the latest `ggwaveInit`. -/
def SessionInv {σ : Type} (h : History) (s : State σ) : Prop :=
  s.g_ggwave ≠ -1 →
    initSinceDeinit h = true ∧
    s.max_payload_size = s.p_ggwave.payloadLength ∧
    createdWith s.g_ggwave s.calls = some s.p_ggwave ∧
    latestInitPayload h = some s.max_payload_size

/-! ## Sequences of calls that go on past a fault -/

/-- The state `ggwaveEncode` leaves behind, whether it returned or ran into a
fault: it assigns none of the three globals, and the library has been called
as far as the call got (not at all, the size query, or both calls). -/
def encodeState {σ : Type} (P : Platform σ) (message : JString) (protocol volume : Int)
    (s : State σ) : State σ :=
  if s.g_ggwave = -1 then s
  else if (sizeQuery P message protocol volume s).ret ≤ 0 then
    { s with lib := (sizeQuery P message protocol volume s).next
             calls := LibCall.encode s.g_ggwave (GetStringLength message) 1
               (sizeQuery P message protocol volume s).ret :: s.calls }
  else
    { s with lib := (fillCall P message protocol volume s).next
             calls := LibCall.encode s.g_ggwave (GetStringLength message) 0
                 (fillCall P message protocol volume s).ret
               :: LibCall.encode s.g_ggwave (GetStringLength message) 1
                 (sizeQuery P message protocol volume s).ret :: s.calls }

/-- The state `ggwaveDecode` leaves behind, whether it returned or ran into a
fault: it assigns none of the three globals, and the library has been called
once the output buffer exists. -/
def decodeState {σ : Type} (P : Platform σ) (audio_data : List Byte) (length : Int)
    (s : State σ) : State σ :=
  if s.g_ggwave = -1 then s
  else if P.elementsUnavailable audio_data then s
  else if s.max_payload_size ≤ 0 then s
  else afterDecode P audio_data length s

/-- The state one call leaves behind, fault or not. -/
def stateAfter {σ : Type} (P : Platform σ) (c : Call) (s : State σ) : State σ :=
  match c with
  | Call.init payload_size sample_rate sample_format =>
    (ggwaveInit P payload_size sample_rate sample_format s).2
  | Call.encode message protocol volume => encodeState P message protocol volume s
  | Call.decode audio_data length => decodeState P audio_data length s
  | Call.deinit => (ggwaveDeinit P s).2

/-- The state after the calls in order from state `s`, going on past faults. -/
def runAlwaysFrom {σ : Type} (P : Platform σ) : List Call → State σ → State σ
  | [], s => s
  | c :: cs, s => runAlwaysFrom P cs (stateAfter P c s)

/-- The state after the calls from the initial state, going on past faults. -/
def runAlways {σ : Type} (P : Platform σ) (lib0 : σ) (cs : List Call) : State σ :=
  runAlwaysFrom P cs (initialState lib0)

/-- The `payload_size` argument of the latest `ggwaveInit` among the calls,
`prev` when there is none. -/
def latestInitFrom (prev : Option Int) : List Call → Option Int
  | [] => prev
  | Call.init payload_size _ _ :: cs => latestInitFrom (some payload_size) cs
  | _ :: cs => latestInitFrom prev cs

/-- The `payload_size` argument of the latest `ggwaveInit` in a sequence of calls. -/
def latestInitArgument (cs : List Call) : Option Int :=
  latestInitFrom none cs

/-- What a library remembers of its live instances: for each instance id, the
parameters its `ggwave_init` was given when it created that instance. -/
abbrev Creation := Int → Option ggwave_Parameters

/-- Any library, made to remember the parameters each live instance was
created with: `ggwave_init` notes the parameters it receives under the id it
returns, `ggwave_free` drops the note; results and the wrapped library's own
state are those of the library itself. -/
def remembering {σ : Type} (L : GGWave σ) : GGWave (σ × Creation) where
  getDefaultParameters := L.getDefaultParameters
  ggwave_init := fun parameters st =>
    ((L.ggwave_init parameters st.1).1,
      ((L.ggwave_init parameters st.1).2,
        if (L.ggwave_init parameters st.1).1 = -1 then st.2
        else fun i => if i = (L.ggwave_init parameters st.1).1 then some parameters else st.2 i))
  ggwave_free := fun inst st =>
    (L.ggwave_free inst st.1, fun i => if i = inst then none else st.2 i)
  ggwave_encode := fun inst payloadBuffer payloadSize protocol volume hasBuffer query st =>
    ⟨(L.ggwave_encode inst payloadBuffer payloadSize protocol volume hasBuffer query st.1).ret,
      (L.ggwave_encode inst payloadBuffer payloadSize protocol volume hasBuffer query st.1).stored,
      ((L.ggwave_encode inst payloadBuffer payloadSize protocol volume hasBuffer query st.1).next,
        st.2)⟩
  ggwave_decode := fun inst waveformBuffer waveformSize st =>
    ⟨(L.ggwave_decode inst waveformBuffer waveformSize st.1).ret,
      (L.ggwave_decode inst waveformBuffer waveformSize st.1).stored,
      ((L.ggwave_decode inst waveformBuffer waveformSize st.1).next, st.2)⟩

/-- The platform with its library made to remember. -/
def rememberingPlatform {σ : Type} (P : Platform σ) : Platform (σ × Creation) :=
  { lib := remembering P.lib, indeterminate := P.indeterminate,
    elementsUnavailable := P.elementsUnavailable }

/-- The state over the library itself, without what the library remembers. -/
def forget {σ : Type} (s : State (σ × Creation)) : State σ :=
  { g_ggwave := s.g_ggwave, p_ggwave := s.p_ggwave, max_payload_size := s.max_payload_size,
    lib := s.lib.1, calls := s.calls }

/-- The facts every initialised session keeps over a remembering library:
the buffer bound equals the payload length in `p_ggwave`, the library
remembers `p_ggwave` as the parameters the instance `g_ggwave` was created
with, and the bound is the `payload_size` of the latest `ggwaveInit`. -/
def CreationInv {σ : Type} (latest : Option Int) (s : State (σ × Creation)) : Prop :=
  s.g_ggwave ≠ -1 →
    s.max_payload_size = s.p_ggwave.payloadLength ∧
    s.lib.2 s.g_ggwave = some s.p_ggwave ∧
    latest = some s.max_payload_size

/-! ## The library as a lossless codec -/

/-- The library is a lossless codec: whenever its size query reports a positive
size and its fill call reports the same size, the fill call stored that many
bytes (the waveform), and its decode, given that waveform in one piece right
after, reports exactly the payload: the first `payloadSize` bytes of the
payload buffer. -/
def LosslessCodec {σ : Type} (L : GGWave σ) : Prop :=
  ∀ (inst : Int) (payloadBuffer : List Byte) (payloadSize protocol volume : Int) (st : σ),
    0 < (L.ggwave_encode inst payloadBuffer payloadSize protocol volume false 1 st).ret →
    (L.ggwave_encode inst payloadBuffer payloadSize protocol volume true 0
      (L.ggwave_encode inst payloadBuffer payloadSize protocol volume false 1 st).next).ret
      = (L.ggwave_encode inst payloadBuffer payloadSize protocol volume false 1 st).ret →
    (L.ggwave_encode inst payloadBuffer payloadSize protocol volume true 0
      (L.ggwave_encode inst payloadBuffer payloadSize protocol volume false 1 st).next).stored.length
      = (L.ggwave_encode inst payloadBuffer payloadSize protocol volume false 1 st).ret.toNat ∧
    (L.ggwave_decode inst
      (L.ggwave_encode inst payloadBuffer payloadSize protocol volume true 0
        (L.ggwave_encode inst payloadBuffer payloadSize protocol volume false 1 st).next).stored
      (L.ggwave_encode inst payloadBuffer payloadSize protocol volume true 0
        (L.ggwave_encode inst payloadBuffer payloadSize protocol volume false 1 st).next).stored.length
      (L.ggwave_encode inst payloadBuffer payloadSize protocol volume true 0
        (L.ggwave_encode inst payloadBuffer payloadSize protocol volume false 1 st).next).next).ret
      = payloadSize ∧
    (L.ggwave_decode inst
      (L.ggwave_encode inst payloadBuffer payloadSize protocol volume true 0
        (L.ggwave_encode inst payloadBuffer payloadSize protocol volume false 1 st).next).stored
      (L.ggwave_encode inst payloadBuffer payloadSize protocol volume true 0
        (L.ggwave_encode inst payloadBuffer payloadSize protocol volume false 1 st).next).stored.length
      (L.ggwave_encode inst payloadBuffer payloadSize protocol volume true 0
        (L.ggwave_encode inst payloadBuffer payloadSize protocol volume false 1 st).next).next).stored
      = payloadBuffer.take payloadSize.toNat

/-! ## A concrete library, for evaluating the bridge on explicit inputs -/

/-- The first of the four instance slots that is free. -/
def freeSlot (live : List Int) : Option Int :=
  [0, 1, 2, 3].find? (fun i => !(live.contains i))

/-- Whether the loop-back library takes an encode request: the instance is
live and the payload size is a length it can read from the payload buffer. -/
def loopbackAccepts (live : List Int) (inst : Int) (payloadBuffer : List Byte)
    (payloadSize : Int) : Bool :=
  live.contains inst && decide (0 ≤ payloadSize)
    && decide (payloadSize.toNat ≤ payloadBuffer.length)

/-- A loop-back stand-in for the library.  Its state is the list of live
instance ids (four slots).  The waveform of a payload is the byte `0x7E`
followed by the payload; decoding a waveform that starts with `0x7E` reports
the bytes after it, anything else reports nothing. -/
def loopback : GGWave (List Int) where
  getDefaultParameters := ⟨-1, 0x473B8000, 0x473B8000, 0x473B8000, 1024, 0x40400000, 5, 5, 6⟩
  ggwave_init := fun _ live =>
    match freeSlot live with
    | some i => (i, i :: live)
    | none => (-1, live)
  ggwave_free := fun inst live => live.erase inst
  ggwave_encode := fun inst payloadBuffer payloadSize _ _ hasBuffer _ live =>
    if loopbackAccepts live inst payloadBuffer payloadSize then
      ⟨payloadSize + 1,
        if hasBuffer then 0x7E :: payloadBuffer.take payloadSize.toNat else [], live⟩
    else ⟨-1, [], live⟩
  ggwave_decode := fun inst waveformBuffer waveformSize live =>
    if live.contains inst then
      match waveformBuffer.take waveformSize.toNat with
      | 0x7E :: payload => ⟨payload.length, payload, live⟩
      | _ => ⟨0, [], live⟩
    else ⟨-1, [], live⟩

/-- The loop-back library on a platform where fresh storage holds `0xAA` and
array elements are always available. -/
def loopbackPlatform : Platform (List Int) :=
  { lib := loopback, indeterminate := fun _ => 0xAA, elementsUnavailable := fun _ => false }

/-- The state after `ggwaveInit(payload_size, 48000.0f, 5)` from the initial state. -/
def stateAfterInit (payload_size : Int) : State (List Int) :=
  (ggwaveInit loopbackPlatform payload_size 0x473B8000 5 (initialState [])).2

theorem modifiedUtf8_ascii (message : JString) (h : ∀ u ∈ message, 1 ≤ u ∧ u ≤ 0x7F) :
    modifiedUtf8 message = message := by
  induction message with
  | nil => rfl
  | cons u us ih =>
    have hu := h u (List.mem_cons_self u us)
    have ih1 := ih (fun v hv => h v (List.mem_cons_of_mem u hv))
    simp [modifiedUtf8, encodeUnit, hu, ih1]

theorem decodeModifiedUtf8_ascii (bytes : List Byte) (h : ∀ b ∈ bytes, 1 ≤ b ∧ b ≤ 0x7F) :
    decodeModifiedUtf8 bytes = some bytes := by
  induction bytes with
  | nil => rfl
  | cons b bs ih =>
    have hb := h b (List.mem_cons_self b bs)
    have ih1 := ih (fun v hv => h v (List.mem_cons_of_mem b hv))
    have hb2 : b < 0x80 := Nat.lt_succ_of_le hb.2
    rw [decodeModifiedUtf8.eq_def]
    simp only
    rw [if_pos ⟨hb.1, hb2⟩, ih1]
    rfl

theorem cString_append_zero (bytes tail : List Byte) (h : ∀ b ∈ bytes, b ≠ 0) :
    cString (bytes ++ 0 :: tail) = some bytes := by
  induction bytes with
  | nil => simp [cString]
  | cons b bs ih =>
    have hb := h b (List.mem_cons_self b bs)
    have ih1 := ih (fun v hv => h v (List.mem_cons_of_mem b hv))
    simp [cString, hb, ih1]

theorem newCharArray_length {σ : Type} (P : Platform σ) (n : Nat) :
    (newCharArray P n).length = n := by
  simp [newCharArray]

theorem storeBytes_full (buffer written : List Byte) (h : written.length = buffer.length) :
    storeBytes buffer written = some written := by
  simp [storeBytes, h]

theorem loopback_encode_accept (live : List Int) (inst : Int) (payloadBuffer : List Byte)
    (payloadSize protocol volume : Int) (hasBuffer : Bool) (query : Int)
    (h : loopbackAccepts live inst payloadBuffer payloadSize = true) :
    loopback.ggwave_encode inst payloadBuffer payloadSize protocol volume hasBuffer query live
      = ⟨payloadSize + 1,
          if hasBuffer then 0x7E :: payloadBuffer.take payloadSize.toNat else [], live⟩ := by
  show (if loopbackAccepts live inst payloadBuffer payloadSize = true then _ else _) = _
  rw [if_pos h]

theorem loopback_encode_reject (live : List Int) (inst : Int) (payloadBuffer : List Byte)
    (payloadSize protocol volume : Int) (hasBuffer : Bool) (query : Int)
    (h : loopbackAccepts live inst payloadBuffer payloadSize = false) :
    loopback.ggwave_encode inst payloadBuffer payloadSize protocol volume hasBuffer query live
      = ⟨-1, [], live⟩ := by
  show (if loopbackAccepts live inst payloadBuffer payloadSize = true then _ else _) = _
  rw [if_neg (by simp [h])]

theorem loopback_decode_marked (live : List Int) (inst : Int) (payload : List Byte)
    (h : live.contains inst = true) :
    loopback.ggwave_decode inst (0x7E :: payload) ((payload.length + 1 : Nat) : Int) live
      = ⟨payload.length, payload, live⟩ := by
  show (if live.contains inst = true then _ else _) = _
  rw [if_pos h]
  simp

theorem loopback_lossless : LosslessCodec loopback := by
  intro inst payloadBuffer payloadSize protocol volume st
  cases hacc : loopbackAccepts st inst payloadBuffer payloadSize with
  | false =>
    rw [loopback_encode_reject st inst payloadBuffer payloadSize protocol volume false 1 hacc]
    intro hq
    exact absurd hq (by simp)
  | true =>
    rw [loopback_encode_accept st inst payloadBuffer payloadSize protocol volume false 1 hacc]
    rw [loopback_encode_accept st inst payloadBuffer payloadSize protocol volume true 0 hacc]
    intro _ _
    have hacc1 := hacc
    simp only [loopbackAccepts, Bool.and_eq_true, decide_eq_true_eq] at hacc1
    obtain ⟨⟨h1, h2⟩, h3⟩ := hacc1
    have hlen : (List.take payloadSize.toNat payloadBuffer).length = payloadSize.toNat :=
      List.length_take_of_le h3
    have hcast : ((payloadSize.toNat : Nat) : Int) = payloadSize := Int.toNat_of_nonneg h2
    simp only [if_true, List.length_cons]
    rw [loopback_decode_marked st inst _ h1, hlen]
    refine ⟨?_, hcast, rfl⟩
    omega

/-! ## The entry points, case by case -/

theorem storeBytes_length (buffer written filled : List Byte)
    (h : storeBytes buffer written = some filled) : filled.length = buffer.length := by
  unfold storeBytes at h
  split at h
  · rename_i hle
    injection h with h
    subst h
    simp
    omega
  · exact absurd h (by simp)

theorem ggwaveEncode_uninitialised {σ : Type} (P : Platform σ) (message : JString)
    (protocol volume : Int) (s : State σ) (hg : s.g_ggwave = -1) :
    ggwaveEncode P message protocol volume s = .ok (none, s) := by
  unfold ggwaveEncode
  rw [if_pos hg]

theorem ggwaveDecode_uninitialised {σ : Type} (P : Platform σ) (audio_data : List Byte)
    (length : Int) (s : State σ) (hg : s.g_ggwave = -1) :
    ggwaveDecode P audio_data length s = .ok (none, s) := by
  unfold ggwaveDecode
  rw [if_pos hg]

/-- The state `ggwaveEncode` leaves after both library calls. -/
theorem ggwaveEncode_some {σ : Type} (P : Platform σ) (message : JString)
    (protocol volume : Int) (s s1 : State σ) (w : List Byte)
    (h : ggwaveEncode P message protocol volume s = .ok (some w, s1)) :
    s.g_ggwave ≠ -1 ∧ 0 < (sizeQuery P message protocol volume s).ret ∧
    (fillCall P message protocol volume s).ret = (sizeQuery P message protocol volume s).ret ∧
    storeBytes (newCharArray P (sizeQuery P message protocol volume s).ret.toNat)
      (fillCall P message protocol volume s).stored = some w ∧
    s1.g_ggwave = s.g_ggwave ∧ s1.max_payload_size = s.max_payload_size ∧
    s1.lib = (fillCall P message protocol volume s).next := by
  unfold ggwaveEncode at h
  by_cases hg : s.g_ggwave = -1
  · rw [if_pos hg] at h
    simp at h
  · rw [if_neg hg] at h
    simp only at h
    by_cases hn : (sizeQuery P message protocol volume s).ret ≤ 0
    · unfold sizeQuery at hn
      rw [if_pos hn] at h
      simp at h
    · have hn1 := hn
      unfold sizeQuery at hn1
      rw [if_neg hn1] at h
      cases hst : storeBytes (newCharArray P (sizeQuery P message protocol volume s).ret.toNat)
          (fillCall P message protocol volume s).stored with
      | none =>
        unfold fillCall sizeQuery at hst
        rw [hst] at h
        simp at h
      | some filled =>
        have hst1 := hst
        unfold fillCall sizeQuery at hst1
        rw [hst1] at h
        simp only at h
        by_cases hc : (fillCall P message protocol volume s).ret
            = (sizeQuery P message protocol volume s).ret
        · have hc1 := hc
          unfold fillCall sizeQuery at hc1
          rw [if_neg (not_not.mpr hc1)] at h
          injection h with h
          injection h with hw hs
          injection hw with hw
          have hfl := storeBytes_length _ _ _ hst
          rw [newCharArray_length] at hfl
          have hw2 : filled = w := by
            rw [← hw]
            unfold sizeQuery at hfl
            exact (List.take_of_length_le (le_of_eq hfl)).symm
          subst hw2
          subst hs
          exact ⟨hg, not_le.mp hn, hc, rfl, rfl, rfl, rfl⟩
        · have hc1 := hc
          unfold fillCall sizeQuery at hc1
          rw [if_pos hc1] at h
          simp at h

/-- What `ggwaveDecode` does once the session is initialised, the array elements
are available, the buffer bound is positive and the library's bytes fit. -/
theorem ggwaveDecode_initialised {σ : Type} (P : Platform σ) (audio_data : List Byte)
    (length : Int) (s : State σ) (written : List Byte)
    (hg : s.g_ggwave ≠ -1) (hel : P.elementsUnavailable audio_data = false)
    (hc : 0 < s.max_payload_size)
    (hst : storeBytes (List.replicate s.max_payload_size.toNat 0)
      (decodeCall P audio_data length s).stored = some written) :
    ggwaveDecode P audio_data length s =
      if 0 < (decodeCall P audio_data length s).ret then
        match NewStringUTF written with
        | .error e => .error e
        | .ok str => .ok (some str, afterDecode P audio_data length s)
      else .ok (none, afterDecode P audio_data length s) := by
  unfold ggwaveDecode
  rw [if_neg hg, hel]
  simp only [Bool.false_eq_true, if_false]
  rw [if_neg (not_le.mpr hc)]
  unfold decodeCall at hst
  rw [hst]
  rfl

theorem storeBytes_zeros (c : Nat) (written : List Byte) (h : written.length < c) :
    storeBytes (List.replicate c 0) written
      = some (written ++ 0 :: List.replicate (c - written.length - 1) 0) := by
  unfold storeBytes
  rw [if_pos (by simp; omega)]
  congr 2
  rw [List.drop_replicate]
  have : c - written.length = (c - written.length - 1) + 1 := by omega
  rw [this, List.replicate_succ]
  simp

theorem take_append_length (xs ys : List Byte) : (xs ++ ys).take xs.length = xs := by
  simp

/-! ## C1: round trip through the bridge -/

/-- C1, counterexample: with the loop-back library (a lossless codec) and a
session initialised with ceiling 20, the empty message (length 0, within the
ceiling) is encoded to the waveform `[0x7E]`, and handing that waveform to
`ggwaveDecode` in one chunk returns null, not the empty message: the library
reports 0 bytes and `ggwaveDecode` returns a string only for a positive count. -/
theorem empty_message_round_trip_fails :
    LosslessCodec loopbackPlatform.lib ∧
    (ggwaveInit loopbackPlatform 20 0x473B8000 5 (initialState [])).1 = 0 ∧
    (stateAfterInit 20).max_payload_size = 20 ∧
    GetStringLength [] ≤ (stateAfterInit 20).max_payload_size ∧
    ∃ s1, ggwaveEncode loopbackPlatform [] 1 50 (stateAfterInit 20) = .ok (some [0x7E], s1) ∧
      returned (ggwaveDecode loopbackPlatform [0x7E] 1 s1) = .ok none :=
  ⟨loopback_lossless, rfl, rfl, by decide, _, rfl, rfl⟩

/-- C1 (amended): with the library a lossless codec, for every non-empty message
made of code units `1..0x7F` whose length is strictly below `max_payload_size`
(the ceiling `ggwaveInit` stored), and every protocol id and volume: when
`ggwaveEncode` returns a waveform, handing it to `ggwaveDecode` in one chunk
(the array elements being available) returns the message. -/
theorem ascii_round_trip {σ : Type} (P : Platform σ) (hL : LosslessCodec P.lib)
    (s s1 : State σ) (message : JString) (protocol volume : Int) (w : List Byte)
    (hne : message ≠ [])
    (hascii : ∀ u ∈ message, 1 ≤ u ∧ u ≤ 0x7F)
    (hlen : (message.length : Int) < s.max_payload_size)
    (henc : ggwaveEncode P message protocol volume s = .ok (some w, s1))
    (hel : P.elementsUnavailable w = false) :
    ggwaveDecode P w w.length s1 = .ok (some message, afterDecode P w w.length s1) := by
  obtain ⟨hg, hq, hf, hst, hg1, hm1, hl1⟩ := ggwaveEncode_some P message protocol volume s s1 w henc
  obtain ⟨hlenw, hret, hstored⟩ :=
    hL s.g_ggwave (GetStringUTFChars message) (GetStringLength message) protocol volume s.lib
      hq hf
  -- the waveform is what the fill call stored
  have hw : w = (fillCall P message protocol volume s).stored := by
    have h2 := storeBytes_full (newCharArray P (sizeQuery P message protocol volume s).ret.toNat)
      (fillCall P message protocol volume s).stored
      (by rw [newCharArray_length]; exact hlenw)
    rw [h2] at hst
    injection hst with hst
    exact hst.symm
  -- the library's decode reports the message bytes
  have hd : decodeCall P w w.length s1
      = P.lib.ggwave_decode s.g_ggwave (fillCall P message protocol volume s).stored
          (fillCall P message protocol volume s).stored.length
          (fillCall P message protocol volume s).next := by
    unfold decodeCall
    rw [hg1, hl1, hw]
  have hpayload : (GetStringUTFChars message).take (GetStringLength message).toNat = message := by
    unfold GetStringUTFChars GetStringLength
    rw [modifiedUtf8_ascii message hascii, Int.toNat_ofNat]
    exact take_append_length message [0]
  have hdret : (decodeCall P w w.length s1).ret = message.length := by
    rw [hd]
    exact hret
  have hdstored : (decodeCall P w w.length s1).stored = message := by
    rw [hd]
    exact hstored.trans hpayload
  have hpos : 0 < (decodeCall P w w.length s1).ret := by
    rw [hdret]
    have : 0 < message.length := List.length_pos.mpr hne
    exact_mod_cast this
  have hfit : message.length < s1.max_payload_size.toNat := by
    rw [hm1]
    omega
  have hnz : ∀ b ∈ message, b ≠ 0 := fun b hb => by
    have := (hascii b hb).1
    exact Nat.one_le_iff_ne_zero.mp this
  have hbuf := storeBytes_zeros s1.max_payload_size.toNat message hfit
  rw [← hdstored] at hbuf
  rw [ggwaveDecode_initialised P w w.length s1 _ (by rw [hg1]; exact hg) hel
    (by rw [hm1]; omega) hbuf, if_pos hpos]
  rw [hdstored]
  simp only [NewStringUTF, cString_append_zero message _ hnz,
    decodeModifiedUtf8_ascii message hascii]

/-- C1 (amended), at a concrete input: the message "Hi" (2 code units) on a
session of ceiling 20 over the loop-back library. -/
theorem ascii_round_trip_witness :
    LosslessCodec loopbackPlatform.lib ∧ ([0x48, 0x69] : JString) ≠ [] ∧
    (∀ u ∈ ([0x48, 0x69] : JString), 1 ≤ u ∧ u ≤ 0x7F) ∧
    ((([0x48, 0x69] : JString).length : Int) < (stateAfterInit 20).max_payload_size) ∧
    ∃ s1, ggwaveEncode loopbackPlatform [0x48, 0x69] 1 50 (stateAfterInit 20)
        = .ok (some [0x7E, 0x48, 0x69], s1) ∧
      ggwaveDecode loopbackPlatform [0x7E, 0x48, 0x69] 3 s1
        = .ok (some [0x48, 0x69], afterDecode loopbackPlatform [0x7E, 0x48, 0x69] 3 s1) :=
  ⟨loopback_lossless, by decide, by decide, by decide, _, rfl,
    ascii_round_trip loopbackPlatform loopback_lossless (stateAfterInit 20) _ [0x48, 0x69] 1 50
      [0x7E, 0x48, 0x69] (by decide) (by decide) (by decide) rfl rfl⟩

/-! ## C2: size pre-query -/

theorem ggwaveEncode_frame {σ : Type} (P : Platform σ) (message : JString)
    (protocol volume : Int) (s s1 : State σ) (r : Option (List Byte))
    (h : ggwaveEncode P message protocol volume s = .ok (r, s1)) :
    s1.g_ggwave = s.g_ggwave ∧ s1.p_ggwave = s.p_ggwave ∧
    s1.max_payload_size = s.max_payload_size ∧
    ∀ i, createdWith i s1.calls = createdWith i s.calls := by
  unfold ggwaveEncode at h
  split at h
  · cases h
    exact ⟨rfl, rfl, rfl, fun _ => rfl⟩
  · simp only at h
    split at h
    · cases h
      exact ⟨rfl, rfl, rfl, fun _ => rfl⟩
    · split at h
      · cases h
      · split at h
        · cases h
          exact ⟨rfl, rfl, rfl, fun _ => rfl⟩
        · cases h
          exact ⟨rfl, rfl, rfl, fun _ => rfl⟩

theorem ggwaveDecode_frame {σ : Type} (P : Platform σ) (audio_data : List Byte)
    (length : Int) (s s1 : State σ) (r : Option JString)
    (h : ggwaveDecode P audio_data length s = .ok (r, s1)) :
    s1.g_ggwave = s.g_ggwave ∧ s1.p_ggwave = s.p_ggwave ∧
    s1.max_payload_size = s.max_payload_size ∧
    ∀ i, createdWith i s1.calls = createdWith i s.calls := by
  unfold ggwaveDecode at h
  split at h
  · cases h
    exact ⟨rfl, rfl, rfl, fun _ => rfl⟩
  · split at h
    · cases h
      exact ⟨rfl, rfl, rfl, fun _ => rfl⟩
    · simp only at h
      split at h
      · cases h
      · split at h
        · cases h
        · split at h
          · split at h
            · cases h
            · cases h
              exact ⟨rfl, rfl, rfl, fun _ => rfl⟩
          · cases h
            exact ⟨rfl, rfl, rfl, fun _ => rfl⟩

theorem sessionInv_initial {σ : Type} (lib0 : σ) : SessionInv [] (initialState lib0) := by
  intro hg
  exact absurd rfl hg

theorem sessionInv_step {σ : Type} (P : Platform σ) (c : Call) (h : History)
    (s s1 : State σ) (r : Ret) (hinv : SessionInv h s) (hstep : step P c s = .ok (r, s1)) :
    SessionInv ((c, r) :: h) s1 := by
  cases c with
  | init payload_size sample_rate sample_format =>
    simp only [step] at hstep
    injection hstep with hstep
    injection hstep with hr hs
    subst hr
    subst hs
    intro hg
    unfold ggwaveInit at hg ⊢
    by_cases hret : (P.lib.ggwave_init
        { P.lib.getDefaultParameters with
          payloadLength := payload_size
          sampleRateInp := sample_rate
          sampleRateOut := sample_rate
          sampleFormatInp := sample_format
          sampleFormatOut := sample_format } s.lib).1 = -1
    · simp only [hret, if_true] at hg
      exact absurd rfl hg
    · rw [if_neg hret]
      refine ⟨rfl, rfl, ?_, rfl⟩
      show (if _ = _ then some _ else _) = some _
      rw [if_pos rfl]
  | encode message protocol volume =>
    simp only [step] at hstep
    cases henc : ggwaveEncode P message protocol volume s with
    | error e =>
      rw [henc] at hstep
      cases hstep
    | ok res =>
      rw [henc] at hstep
      injection hstep with hstep
      injection hstep with hr hs
      subst hr
      subst hs
      obtain ⟨hg1, hp1, hm1, hc1⟩ := ggwaveEncode_frame P message protocol volume s res.2 res.1 henc
      intro hg
      rw [hg1] at hg
      obtain ⟨i1, i2, i3, i4⟩ := hinv hg
      refine ⟨i1, ?_, ?_, ?_⟩
      · rw [hm1, hp1]; exact i2
      · rw [hg1, hp1, hc1]; exact i3
      · rw [hm1]; exact i4
  | decode audio_data length =>
    simp only [step] at hstep
    cases hdec : ggwaveDecode P audio_data length s with
    | error e =>
      rw [hdec] at hstep
      cases hstep
    | ok res =>
      rw [hdec] at hstep
      injection hstep with hstep
      injection hstep with hr hs
      subst hr
      subst hs
      obtain ⟨hg1, hp1, hm1, hc1⟩ := ggwaveDecode_frame P audio_data length s res.2 res.1 hdec
      intro hg
      rw [hg1] at hg
      obtain ⟨i1, i2, i3, i4⟩ := hinv hg
      refine ⟨i1, ?_, ?_, ?_⟩
      · rw [hm1, hp1]; exact i2
      · rw [hg1, hp1, hc1]; exact i3
      · rw [hm1]; exact i4
  | deinit =>
    simp only [step] at hstep
    injection hstep with hstep
    injection hstep with hr hs
    subst hs
    intro hg
    exact absurd rfl hg

theorem sessionInv_runFrom {σ : Type} (P : Platform σ) (cs : List Call) :
    ∀ (h h1 : History) (s s1 : State σ), SessionInv h s →
      runFrom P cs h s = .ok (h1, s1) → SessionInv h1 s1 := by
  induction cs with
  | nil =>
    intro h h1 s s1 hinv hrun
    simp only [runFrom] at hrun
    injection hrun with hrun
    injection hrun with hh hs
    subst hh
    subst hs
    exact hinv
  | cons c cs ih =>
    intro h h1 s s1 hinv hrun
    simp only [runFrom] at hrun
    cases hstep : step P c s with
    | error e =>
      rw [hstep] at hrun
      cases hrun
    | ok res =>
      rw [hstep] at hrun
      exact ih ((c, res.1) :: h) h1 res.2 s1 (sessionInv_step P c h s res.2 res.1 hinv hstep) hrun

theorem sessionInv_run {σ : Type} (P : Platform σ) (lib0 : σ) (cs : List Call)
    (h : History) (s : State σ) (hrun : run P lib0 cs = .ok (h, s)) : SessionInv h s :=
  sessionInv_runFrom P cs [] h (initialState lib0) s (sessionInv_initial lib0) hrun

/-! ## C3: calls on a session that is not initialised -/

/-- C3: after any sequence of calls from the initial state, if no `ggwaveInit`
returned 0 since the start or since the latest `ggwaveDeinit`, then every
`ggwaveEncode` and every `ggwaveDecode` returns null and leaves the state as it
was: the record of library calls is unchanged, so neither `ggwave_encode` nor
`ggwave_decode` was called. -/
theorem uninitialised_calls_fail {σ : Type} (P : Platform σ) (lib0 : σ) (cs : List Call)
    (h : History) (s : State σ) (hrun : run P lib0 cs = .ok (h, s))
    (hno : initSinceDeinit h = false) :
    (∀ (message : JString) (protocol volume : Int),
      ggwaveEncode P message protocol volume s = .ok (none, s)) ∧
    (∀ (audio_data : List Byte) (length : Int),
      ggwaveDecode P audio_data length s = .ok (none, s)) := by
  have hg : s.g_ggwave = -1 := by
    by_contra hne
    have hinv := (sessionInv_run P lib0 cs h s hrun hne).1
    rw [hno] at hinv
    exact absurd hinv (by decide)
  exact ⟨fun message protocol volume => ggwaveEncode_uninitialised P message protocol volume s hg,
    fun audio_data length => ggwaveDecode_uninitialised P audio_data length s hg⟩

/-- C3, at a concrete input: after `ggwaveInit`, `ggwaveEncode`, `ggwaveDeinit`
over the loop-back library, encoding "H" and decoding a waveform return null. -/
theorem uninitialised_calls_fail_witness :
    ∃ h s, run loopbackPlatform []
        [Call.init 20 0x473B8000 5, Call.encode [0x48] 1 50, Call.deinit] = .ok (h, s) ∧
      initSinceDeinit h = false ∧
      ggwaveEncode loopbackPlatform [0x48] 1 50 s = .ok (none, s) ∧
      ggwaveDecode loopbackPlatform [0x7E, 0x48] 2 s = .ok (none, s) :=
  ⟨_, _, rfl, rfl,
    (uninitialised_calls_fail loopbackPlatform []
      [Call.init 20 0x473B8000 5, Call.encode [0x48] 1 50, Call.deinit] _ _ rfl rfl).1 [0x48] 1 50,
    rfl⟩

/-! ## Runs that go on past a fault -/

theorem ggwaveEncode_state {σ : Type} (P : Platform σ) (message : JString)
    (protocol volume : Int) (s s1 : State σ) (r : Option (List Byte))
    (h : ggwaveEncode P message protocol volume s = .ok (r, s1)) :
    s1 = encodeState P message protocol volume s := by
  unfold ggwaveEncode at h
  unfold encodeState
  by_cases hg : s.g_ggwave = -1
  · rw [if_pos hg] at h
    rw [if_pos hg]
    cases h
    rfl
  · rw [if_neg hg] at h
    rw [if_neg hg]
    simp only at h
    by_cases hn : (sizeQuery P message protocol volume s).ret ≤ 0
    · rw [if_pos hn]
      unfold sizeQuery at hn
      rw [if_pos hn] at h
      cases h
      rfl
    · rw [if_neg hn]
      unfold sizeQuery at hn
      rw [if_neg hn] at h
      split at h
      · cases h
      · split at h
        · cases h
          rfl
        · cases h
          rfl

theorem ggwaveDecode_state {σ : Type} (P : Platform σ) (audio_data : List Byte)
    (length : Int) (s s1 : State σ) (r : Option JString)
    (h : ggwaveDecode P audio_data length s = .ok (r, s1)) :
    s1 = decodeState P audio_data length s := by
  unfold ggwaveDecode at h
  unfold decodeState
  by_cases hg : s.g_ggwave = -1
  · rw [if_pos hg] at h
    rw [if_pos hg]
    cases h
    rfl
  · rw [if_neg hg] at h
    rw [if_neg hg]
    by_cases hel : P.elementsUnavailable audio_data = true
    · rw [if_pos hel] at h
      rw [if_pos hel]
      cases h
      rfl
    · rw [if_neg hel] at h
      rw [if_neg hel]
      simp only at h
      by_cases hc : s.max_payload_size ≤ 0
      · rw [if_pos hc] at h
        cases h
      · rw [if_neg hc] at h
        rw [if_neg hc]
        split at h
        · cases h
        · split at h
          · split at h
            · cases h
            · cases h
              rfl
          · cases h
            rfl

/-- Wherever a call returns, the state it returns is the state `stateAfter` gives. -/
theorem step_stateAfter {σ : Type} (P : Platform σ) (c : Call) (s s1 : State σ) (r : Ret)
    (h : step P c s = .ok (r, s1)) : s1 = stateAfter P c s := by
  cases c with
  | init payload_size sample_rate sample_format =>
    simp only [step] at h
    cases h
    rfl
  | encode message protocol volume =>
    simp only [step] at h
    cases henc : ggwaveEncode P message protocol volume s with
    | error e =>
      rw [henc] at h
      cases h
    | ok res =>
      rw [henc] at h
      cases h
      exact ggwaveEncode_state P message protocol volume s res.2 res.1 henc
  | decode audio_data length =>
    simp only [step] at h
    cases hdec : ggwaveDecode P audio_data length s with
    | error e =>
      rw [hdec] at h
      cases h
    | ok res =>
      rw [hdec] at h
      cases h
      exact ggwaveDecode_state P audio_data length s res.2 res.1 hdec
  | deinit =>
    simp only [step] at h
    cases h
    rfl

/-- A run without fault ends in the state the run past faults gives. -/
theorem runFrom_runAlwaysFrom {σ : Type} (P : Platform σ) (cs : List Call) :
    ∀ (h h1 : History) (s s1 : State σ),
      runFrom P cs h s = .ok (h1, s1) → runAlwaysFrom P cs s = s1 := by
  induction cs with
  | nil =>
    intro h h1 s s1 hrun
    simp only [runFrom] at hrun
    cases hrun
    rfl
  | cons c cs ih =>
    intro h h1 s s1 hrun
    simp only [runFrom] at hrun
    cases hstep : step P c s with
    | error e =>
      rw [hstep] at hrun
      cases hrun
    | ok res =>
      rw [hstep] at hrun
      have hs := step_stateAfter P c s res.2 res.1 hstep
      show runAlwaysFrom P cs (stateAfter P c s) = s1
      rw [← hs]
      exact ih _ h1 res.2 s1 hrun

theorem run_runAlways {σ : Type} (P : Platform σ) (lib0 : σ) (cs : List Call)
    (h : History) (s : State σ) (hrun : run P lib0 cs = .ok (h, s)) :
    runAlways P lib0 cs = s :=
  runFrom_runAlwaysFrom P cs [] h (initialState lib0) s hrun

/-! ## A library that remembers what its instances were created with -/

theorem forget_stateAfter {σ : Type} (P : Platform σ) (c : Call) (s : State (σ × Creation)) :
    forget (stateAfter (rememberingPlatform P) c s) = stateAfter P c (forget s) := by
  cases c with
  | init payload_size sample_rate sample_format =>
    simp only [stateAfter, ggwaveInit]
    split
    · rename_i hr
      have hr1 : (P.lib.ggwave_init
          { P.lib.getDefaultParameters with
            payloadLength := payload_size
            sampleRateInp := sample_rate
            sampleRateOut := sample_rate
            sampleFormatInp := sample_format
            sampleFormatOut := sample_format } (forget s).lib).1 = -1 := hr
      rw [if_pos hr1]
      rfl
    · rename_i hr
      have hr1 : ¬ (P.lib.ggwave_init
          { P.lib.getDefaultParameters with
            payloadLength := payload_size
            sampleRateInp := sample_rate
            sampleRateOut := sample_rate
            sampleFormatInp := sample_format
            sampleFormatOut := sample_format } (forget s).lib).1 = -1 := hr
      rw [if_neg hr1]
      rfl
  | encode message protocol volume =>
    simp only [stateAfter]
    unfold encodeState
    by_cases hg : s.g_ggwave = -1
    · have hg1 : (forget s).g_ggwave = -1 := hg
      rw [if_pos hg, if_pos hg1]
    · have hg1 : ¬ (forget s).g_ggwave = -1 := hg
      rw [if_neg hg, if_neg hg1]
      by_cases hn : (sizeQuery (rememberingPlatform P) message protocol volume s).ret ≤ 0
      · have hn1 : (sizeQuery P message protocol volume (forget s)).ret ≤ 0 := hn
        rw [if_pos hn, if_pos hn1]
        rfl
      · have hn1 : ¬ (sizeQuery P message protocol volume (forget s)).ret ≤ 0 := hn
        rw [if_neg hn, if_neg hn1]
        rfl
  | decode audio_data length =>
    simp only [stateAfter]
    unfold decodeState
    by_cases hg : s.g_ggwave = -1
    · have hg1 : (forget s).g_ggwave = -1 := hg
      rw [if_pos hg, if_pos hg1]
    · have hg1 : ¬ (forget s).g_ggwave = -1 := hg
      rw [if_neg hg, if_neg hg1]
      by_cases hel : P.elementsUnavailable audio_data = true
      · have hel1 : (rememberingPlatform P).elementsUnavailable audio_data = true := hel
        rw [if_pos hel, if_pos hel1]
      · have hel1 : ¬ (rememberingPlatform P).elementsUnavailable audio_data = true := hel
        rw [if_neg hel, if_neg hel1]
        by_cases hc : s.max_payload_size ≤ 0
        · have hc1 : (forget s).max_payload_size ≤ 0 := hc
          rw [if_pos hc, if_pos hc1]
        · have hc1 : ¬ (forget s).max_payload_size ≤ 0 := hc
          rw [if_neg hc, if_neg hc1]
          rfl
  | deinit => rfl

theorem forget_runAlwaysFrom {σ : Type} (P : Platform σ) (cs : List Call) :
    ∀ s : State (σ × Creation),
      forget (runAlwaysFrom (rememberingPlatform P) cs s) = runAlwaysFrom P cs (forget s) := by
  induction cs with
  | nil =>
    intro s
    rfl
  | cons c cs ih =>
    intro s
    show forget (runAlwaysFrom (rememberingPlatform P) cs (stateAfter (rememberingPlatform P) c s))
      = runAlwaysFrom P cs (stateAfter P c (forget s))
    rw [ih, forget_stateAfter]

theorem encodeState_globals {σ : Type} (P : Platform σ) (message : JString)
    (protocol volume : Int) (s : State (σ × Creation)) :
    (encodeState (rememberingPlatform P) message protocol volume s).g_ggwave = s.g_ggwave ∧
    (encodeState (rememberingPlatform P) message protocol volume s).p_ggwave = s.p_ggwave ∧
    (encodeState (rememberingPlatform P) message protocol volume s).max_payload_size
      = s.max_payload_size ∧
    (encodeState (rememberingPlatform P) message protocol volume s).lib.2 = s.lib.2 := by
  unfold encodeState
  split
  · exact ⟨rfl, rfl, rfl, rfl⟩
  · split
    · exact ⟨rfl, rfl, rfl, rfl⟩
    · exact ⟨rfl, rfl, rfl, rfl⟩

theorem decodeState_globals {σ : Type} (P : Platform σ) (audio_data : List Byte)
    (length : Int) (s : State (σ × Creation)) :
    (decodeState (rememberingPlatform P) audio_data length s).g_ggwave = s.g_ggwave ∧
    (decodeState (rememberingPlatform P) audio_data length s).p_ggwave = s.p_ggwave ∧
    (decodeState (rememberingPlatform P) audio_data length s).max_payload_size
      = s.max_payload_size ∧
    (decodeState (rememberingPlatform P) audio_data length s).lib.2 = s.lib.2 := by
  unfold decodeState
  split
  · exact ⟨rfl, rfl, rfl, rfl⟩
  · split
    · exact ⟨rfl, rfl, rfl, rfl⟩
    · split
      · exact ⟨rfl, rfl, rfl, rfl⟩
      · exact ⟨rfl, rfl, rfl, rfl⟩

theorem creationInv_stateAfter {σ : Type} (P : Platform σ) (c : Call) (latest : Option Int)
    (s : State (σ × Creation)) (hinv : CreationInv latest s) :
    CreationInv (latestInitFrom latest [c]) (stateAfter (rememberingPlatform P) c s) := by
  cases c with
  | init payload_size sample_rate sample_format =>
    intro hg
    simp only [stateAfter, ggwaveInit] at hg ⊢
    split at hg
    · exact absurd (by assumption) hg
    · rename_i hr
      rw [if_neg hr]
      refine ⟨rfl, ?_, rfl⟩
      have hr1 : ¬ (P.lib.ggwave_init
          { P.lib.getDefaultParameters with
            payloadLength := payload_size
            sampleRateInp := sample_rate
            sampleRateOut := sample_rate
            sampleFormatInp := sample_format
            sampleFormatOut := sample_format } s.lib.1).1 = -1 := hr
      simp only [rememberingPlatform, remembering]
      rw [if_neg hr1]
      simp only [if_true]
  | encode message protocol volume =>
    obtain ⟨h1, h2, h3, h4⟩ := encodeState_globals P message protocol volume s
    intro hg
    simp only [stateAfter] at hg ⊢
    rw [h1] at hg
    obtain ⟨i1, i2, i3⟩ := hinv hg
    rw [h1, h2, h3, h4]
    exact ⟨i1, i2, i3⟩
  | decode audio_data length =>
    obtain ⟨h1, h2, h3, h4⟩ := decodeState_globals P audio_data length s
    intro hg
    simp only [stateAfter] at hg ⊢
    rw [h1] at hg
    obtain ⟨i1, i2, i3⟩ := hinv hg
    rw [h1, h2, h3, h4]
    exact ⟨i1, i2, i3⟩
  | deinit =>
    intro hg
    exact absurd rfl hg

theorem creationInv_runAlwaysFrom {σ : Type} (P : Platform σ) (cs : List Call) :
    ∀ (latest : Option Int) (s : State (σ × Creation)), CreationInv latest s →
      CreationInv (latestInitFrom latest cs) (runAlwaysFrom (rememberingPlatform P) cs s) := by
  induction cs with
  | nil =>
    intro latest s hinv
    exact hinv
  | cons c cs ih =>
    intro latest s hinv
    have hstep := creationInv_stateAfter P c latest s hinv
    have hnext := ih _ _ hstep
    cases c <;> exact hnext

/-! ## C7: the buffer bound and the instance's payload length -/

/-- C7: after every sequence of calls from the initial state (calls that ran
into a fault included), if the session is initialised (`g_ggwave != -1`) then
`max_payload_size`, the size of the output buffer of `ggwaveDecode`, equals
`p_ggwave.payloadLength` and is the `payload_size` argument of the latest
`ggwaveInit`; and when the library is made to remember what `ggwave_init`
received (which changes neither the globals nor the library's own state), the
parameters the live instance `g_ggwave` was created with have that same
payload length. -/
theorem ceiling_matches_instance {σ : Type} (P : Platform σ) (lib0 : σ) (cs : List Call)
    (hg : (runAlways P lib0 cs).g_ggwave ≠ -1) :
    (runAlways P lib0 cs).max_payload_size = (runAlways P lib0 cs).p_ggwave.payloadLength ∧
    latestInitArgument cs = some (runAlways P lib0 cs).max_payload_size ∧
    forget (runAlways (rememberingPlatform P) (lib0, fun _ => none) cs) = runAlways P lib0 cs ∧
    ∃ parameters,
      (runAlways (rememberingPlatform P) (lib0, fun _ => none) cs).lib.2
          (runAlways P lib0 cs).g_ggwave = some parameters ∧
        parameters.payloadLength = (runAlways P lib0 cs).max_payload_size := by
  have hf : forget (runAlways (rememberingPlatform P) (lib0, fun _ => none) cs)
      = runAlways P lib0 cs :=
    forget_runAlwaysFrom P cs (initialState (lib0, fun _ => none))
  have hinv0 : CreationInv none (initialState ((lib0, fun _ => none) : σ × Creation)) :=
    fun h => absurd rfl h
  have hinv := creationInv_runAlwaysFrom P cs none _ hinv0
  have hg1 : (runAlways (rememberingPlatform P) (lib0, fun _ => none) cs).g_ggwave ≠ -1 := by
    intro h
    apply hg
    rw [← hf]
    exact h
  obtain ⟨i1, i2, i3⟩ := hinv hg1
  rw [← hf]
  exact ⟨i1, i3, rfl, ⟨_, i2, i1.symm⟩⟩

/-- C7, at a concrete input over the loop-back library: a first session, then a
session of ceiling 7 in which a decode runs into a fault (`0xC3` alone is not
modified UTF-8) before an encode. -/
theorem ceiling_matches_instance_witness :
    (runAlways loopbackPlatform []
      [Call.init 20 0x473B8000 5, Call.deinit, Call.init 7 0x473B8000 5,
        Call.decode [0x7E, 0xC3] 2, Call.encode [0x48] 1 50]).g_ggwave ≠ -1 ∧
    ggwaveDecode loopbackPlatform [0x7E, 0xC3] 2 (stateAfterInit 7)
      = .error Fault.malformedUtf8 ∧
    (runAlways loopbackPlatform []
      [Call.init 20 0x473B8000 5, Call.deinit, Call.init 7 0x473B8000 5,
        Call.decode [0x7E, 0xC3] 2, Call.encode [0x48] 1 50]).max_payload_size = 7 ∧
    ∃ parameters,
      (runAlways (rememberingPlatform loopbackPlatform) ([], fun _ => none)
        [Call.init 20 0x473B8000 5, Call.deinit, Call.init 7 0x473B8000 5,
          Call.decode [0x7E, 0xC3] 2, Call.encode [0x48] 1 50]).lib.2
          (runAlways loopbackPlatform []
            [Call.init 20 0x473B8000 5, Call.deinit, Call.init 7 0x473B8000 5,
              Call.decode [0x7E, 0xC3] 2, Call.encode [0x48] 1 50]).g_ggwave
        = some parameters ∧
      parameters.payloadLength
        = (runAlways loopbackPlatform []
            [Call.init 20 0x473B8000 5, Call.deinit, Call.init 7 0x473B8000 5,
              Call.decode [0x7E, 0xC3] 2, Call.encode [0x48] 1 50]).max_payload_size :=
  ⟨by decide, rfl, rfl,
    (ceiling_matches_instance loopbackPlatform []
      [Call.init 20 0x473B8000 5, Call.deinit, Call.init 7 0x473B8000 5,
        Call.decode [0x7E, 0xC3] 2, Call.encode [0x48] 1 50] (by decide)).2.2.2⟩

/-! ## C4: misuse and "no message yet" -/

/-- C4, counterexample: over the loop-back library, `ggwaveDecode` of four bytes
of silence returns the same value on the initial, uninitialised session (misuse)
and on an initialised session where the library's decode reports 0 (no message
yet): null both times. -/
theorem misuse_and_waiting_return_the_same :
    (initialState ([] : List Int)).g_ggwave = -1 ∧
    (stateAfterInit 20).g_ggwave ≠ -1 ∧
    (decodeCall loopbackPlatform [0, 0, 0, 0] 4 (stateAfterInit 20)).ret ≤ 0 ∧
    returned (ggwaveDecode loopbackPlatform [0, 0, 0, 0] 4 (initialState [])) = .ok none ∧
    returned (ggwaveDecode loopbackPlatform [0, 0, 0, 0] 4 (initialState []))
      = returned (ggwaveDecode loopbackPlatform [0, 0, 0, 0] 4 (stateAfterInit 20)) :=
  ⟨rfl, by decide, by decide, rfl, rfl⟩

/-- C4 (amended): `ggwaveDecode` returns null for misuse (a session that is not
initialised, `g_ggwave = -1`), and it returns null as well on an initialised
session whose buffer bound `max_payload_size` is positive, when the library's
decode result is not positive and the bytes the library stored fit the output
buffer (at most `max_payload_size` of them): the two outcomes have the same
return value, so the return value alone does not tell them apart. -/
theorem decode_null_for_misuse_and_waiting {σ : Type} (P : Platform σ)
    (audio_data : List Byte) (length : Int) (s t : State σ)
    (hs : s.g_ggwave = -1) (ht : t.g_ggwave ≠ -1) (hc : 0 < t.max_payload_size)
    (hn : (decodeCall P audio_data length t).ret ≤ 0)
    (hfit : (decodeCall P audio_data length t).stored.length ≤ t.max_payload_size.toNat) :
    returned (ggwaveDecode P audio_data length s) = .ok none ∧
    returned (ggwaveDecode P audio_data length t) = .ok none := by
  constructor
  · rw [ggwaveDecode_uninitialised P audio_data length s hs]
    rfl
  · cases hel : P.elementsUnavailable audio_data with
    | true =>
      unfold ggwaveDecode
      rw [if_neg ht, hel, if_pos rfl]
      rfl
    | false =>
      have hst : storeBytes (List.replicate t.max_payload_size.toNat 0)
          (decodeCall P audio_data length t).stored
          = some ((decodeCall P audio_data length t).stored
              ++ (List.replicate t.max_payload_size.toNat 0).drop
                (decodeCall P audio_data length t).stored.length) := by
        unfold storeBytes
        rw [if_pos (by rw [List.length_replicate]; exact hfit)]
      rw [ggwaveDecode_initialised P audio_data length t _ ht hel hc hst,
        if_neg (not_lt.mpr hn)]
      rfl

/-- C4 (amended), at a concrete input: silence on the initial state and on a
session of ceiling 20 over the loop-back library. -/
theorem decode_null_for_misuse_and_waiting_witness :
    returned (ggwaveDecode loopbackPlatform [0, 0, 0, 0] 4 (initialState [])) = .ok none ∧
    returned (ggwaveDecode loopbackPlatform [0, 0, 0, 0] 4 (stateAfterInit 20)) = .ok none :=
  decode_null_for_misuse_and_waiting loopbackPlatform [0, 0, 0, 0] 4 (initialState [])
    (stateAfterInit 20) rfl (by decide) (by decide) (by decide) (by decide)

/-! ## C5: messages longer than the ceiling -/

/-- C5, counterexample: on a session initialised with ceiling 1 over the
loop-back library, the message "AB" (length 2) is encoded: `ggwaveEncode`
returns the waveform `[0x7E, 0x41, 0x42]`, not null. -/
theorem oversize_message_is_encoded :
    (stateAfterInit 1).g_ggwave ≠ -1 ∧ (stateAfterInit 1).max_payload_size = 1 ∧
    (stateAfterInit 1).max_payload_size < GetStringLength [0x41, 0x42] ∧
    returned (ggwaveEncode loopbackPlatform [0x41, 0x42] 1 50 (stateAfterInit 1))
      = .ok (some [0x7E, 0x41, 0x42]) :=
  ⟨by decide, rfl, by decide, rfl⟩

/-- C5 (amended): on an initialised session, for every message, longer than the
ceiling or not, `ggwaveEncode` returns null exactly when the library's size
query reports a size that is not positive or its fill call reports a different
size (the fill call storing no more than the queried size); the bridge itself
never compares the message length with the ceiling: the value it returns is
the same whatever `max_payload_size` holds. -/
theorem encode_null_iff_library_refuses {σ : Type} (P : Platform σ) (message : JString)
    (protocol volume : Int) (s : State σ) (hg : s.g_ggwave ≠ -1)
    (hfit : 0 < (sizeQuery P message protocol volume s).ret →
      (fillCall P message protocol volume s).stored.length
        ≤ (sizeQuery P message protocol volume s).ret.toNat) :
    (returned (ggwaveEncode P message protocol volume s) = .ok none ↔
      ((sizeQuery P message protocol volume s).ret ≤ 0 ∨
        (fillCall P message protocol volume s).ret
          ≠ (sizeQuery P message protocol volume s).ret)) ∧
    (∀ c : Int, returned (ggwaveEncode P message protocol volume { s with max_payload_size := c })
      = returned (ggwaveEncode P message protocol volume s)) := by
  constructor
  · unfold ggwaveEncode returned
    rw [if_neg hg]
    simp only
    by_cases hn : (sizeQuery P message protocol volume s).ret ≤ 0
    · have hn1 := hn
      unfold sizeQuery at hn1
      rw [if_pos hn1]
      exact ⟨fun _ => Or.inl hn, fun _ => rfl⟩
    · have hst : storeBytes (newCharArray P (sizeQuery P message protocol volume s).ret.toNat)
          (fillCall P message protocol volume s).stored
          = some ((fillCall P message protocol volume s).stored
              ++ (newCharArray P (sizeQuery P message protocol volume s).ret.toNat).drop
                (fillCall P message protocol volume s).stored.length) := by
        unfold storeBytes
        rw [if_pos (by rw [newCharArray_length]; exact hfit (not_le.mp hn))]
      unfold fillCall sizeQuery at hst
      have hn1 := hn
      unfold sizeQuery at hn1
      rw [if_neg hn1, hst]
      simp only
      by_cases hc : (fillCall P message protocol volume s).ret
          = (sizeQuery P message protocol volume s).ret
      · have hc1 := hc
        unfold fillCall sizeQuery at hc1
        rw [if_neg (not_not.mpr hc1)]
        constructor
        · intro h
          exact absurd h (by simp [Except.map])
        · intro h
          rcases h with h | h
          · exact absurd h hn
          · exact absurd hc h
      · have hc1 := hc
        unfold fillCall sizeQuery at hc1
        rw [if_pos hc1]
        exact ⟨fun _ => Or.inr hc, fun _ => rfl⟩
  · intro c
    unfold ggwaveEncode returned
    simp only
    split
    · rfl
    · split
      · rfl
      · split
        · rfl
        · split <;> rfl

/-- C5 (amended), at a concrete input: the message "AB" on a session of ceiling 1
over the loop-back library, which does not refuse it. -/
theorem encode_null_iff_library_refuses_witness :
    (stateAfterInit 1).g_ggwave ≠ -1 ∧
    (returned (ggwaveEncode loopbackPlatform [0x41, 0x42] 1 50 (stateAfterInit 1)) = .ok none ↔
      ((sizeQuery loopbackPlatform [0x41, 0x42] 1 50 (stateAfterInit 1)).ret ≤ 0 ∨
        (fillCall loopbackPlatform [0x41, 0x42] 1 50 (stateAfterInit 1)).ret
          ≠ (sizeQuery loopbackPlatform [0x41, 0x42] 1 50 (stateAfterInit 1)).ret)) :=
  ⟨by decide,
    (encode_null_iff_library_refuses loopbackPlatform [0x41, 0x42] 1 50 (stateAfterInit 1)
      (by decide) (fun _ => by decide)).1⟩

/-! ## C6: what `ggwaveDecode` returns on an initialised session -/

theorem cString_stored (written tail : List Byte)
    (h : 0 ∈ written ∨ ∃ t, tail = 0 :: t) :
    cString (written ++ tail) = some (written.takeWhile (fun b => b != 0)) := by
  induction written with
  | nil =>
    rcases h with h | ⟨t, ht⟩
    · exact absurd h (List.not_mem_nil 0)
    · subst ht
      simp [cString]
  | cons b bs ih =>
    by_cases hb : b = 0
    · subst hb
      simp [cString]
    · have h1 : 0 ∈ bs ∨ ∃ t, tail = 0 :: t := by
        rcases h with h | h
        · rcases List.mem_cons.mp h with h0 | h0
          · exact absurd h0.symm hb
          · exact Or.inl h0
        · exact Or.inr h
      simp [cString, hb, ih h1]

theorem takeWhile_nonzero (bytes : List Byte) (h : ∀ b ∈ bytes, 1 ≤ b ∧ b ≤ 0x7F) :
    bytes.takeWhile (fun b => b != 0) = bytes := by
  rw [List.takeWhile_eq_self_iff]
  intro b hb
  have h1 : 1 ≤ b := (h b hb).1
  have h0 : b ≠ 0 := Nat.one_le_iff_ne_zero.mp h1
  simpa using h0

/-- C6, counterexample: on a session of ceiling 20 over the loop-back library,
for the chunk `[0x7E, 0x41, 0x00, 0x42]` the library's decode reports 3 and
stores the bytes `0x41 0x00 0x42`; `ggwaveDecode` returns the one-character
string "A", whose bytes are not the three bytes stored. -/
theorem decode_stops_at_zero_byte :
    (stateAfterInit 20).g_ggwave ≠ -1 ∧
    (decodeCall loopbackPlatform [0x7E, 0x41, 0x00, 0x42] 4 (stateAfterInit 20)).ret = 3 ∧
    (decodeCall loopbackPlatform [0x7E, 0x41, 0x00, 0x42] 4 (stateAfterInit 20)).stored
      = [0x41, 0x00, 0x42] ∧
    returned (ggwaveDecode loopbackPlatform [0x7E, 0x41, 0x00, 0x42] 4 (stateAfterInit 20))
      = .ok (some [0x41]) ∧
    modifiedUtf8 [0x41] ≠ [0x41, 0x00, 0x42] :=
  ⟨by decide, rfl, rfl, rfl, by decide⟩

/-- C6 (amended): on an initialised session with a positive buffer bound `c`,
the array elements being available and the bytes the library stored fitting the
buffer: if the library's decode reports `n <= 0`, `ggwaveDecode` returns null;
if it reports `n > 0` and the buffer holds a zero byte (fewer than `c` bytes
stored, or a zero byte among them), `ggwaveDecode` returns the string that the
stored bytes before their first zero byte decode to as modified UTF-8; when
fewer than `c` bytes were stored and all of them are in `1..0x7F`, that string
is exactly the stored bytes. -/
theorem decode_returns_c_string {σ : Type} (P : Platform σ) (audio_data : List Byte)
    (length : Int) (s : State σ)
    (hg : s.g_ggwave ≠ -1) (hel : P.elementsUnavailable audio_data = false)
    (hc : 0 < s.max_payload_size)
    (hfit : (decodeCall P audio_data length s).stored.length ≤ s.max_payload_size.toNat) :
    ((decodeCall P audio_data length s).ret ≤ 0 →
      ggwaveDecode P audio_data length s = .ok (none, afterDecode P audio_data length s)) ∧
    (0 < (decodeCall P audio_data length s).ret →
      ((decodeCall P audio_data length s).stored.length < s.max_payload_size.toNat ∨
        0 ∈ (decodeCall P audio_data length s).stored) →
      ∀ str, decodeModifiedUtf8
          ((decodeCall P audio_data length s).stored.takeWhile (fun b => b != 0)) = some str →
        ggwaveDecode P audio_data length s
          = .ok (some str, afterDecode P audio_data length s)) ∧
    (0 < (decodeCall P audio_data length s).ret →
      (decodeCall P audio_data length s).stored.length < s.max_payload_size.toNat →
      (∀ b ∈ (decodeCall P audio_data length s).stored, 1 ≤ b ∧ b ≤ 0x7F) →
        ggwaveDecode P audio_data length s
          = .ok (some (decodeCall P audio_data length s).stored,
              afterDecode P audio_data length s)) := by
  have hst : storeBytes (List.replicate s.max_payload_size.toNat 0)
      (decodeCall P audio_data length s).stored
      = some ((decodeCall P audio_data length s).stored
          ++ (List.replicate s.max_payload_size.toNat 0).drop
            (decodeCall P audio_data length s).stored.length) := by
    unfold storeBytes
    rw [if_pos (by rw [List.length_replicate]; exact hfit)]
  have hdec := ggwaveDecode_initialised P audio_data length s _ hg hel hc hst
  have hgen : 0 < (decodeCall P audio_data length s).ret →
      ((decodeCall P audio_data length s).stored.length < s.max_payload_size.toNat ∨
        0 ∈ (decodeCall P audio_data length s).stored) →
      ∀ str, decodeModifiedUtf8
          ((decodeCall P audio_data length s).stored.takeWhile (fun b => b != 0)) = some str →
        ggwaveDecode P audio_data length s
          = .ok (some str, afterDecode P audio_data length s) := by
    intro hpos hzero str hstr
    have hz : 0 ∈ (decodeCall P audio_data length s).stored ∨
        ∃ t, (List.replicate s.max_payload_size.toNat (0 : Byte)).drop
          (decodeCall P audio_data length s).stored.length = 0 :: t := by
      rcases hzero with hlt | hmem
      · right
        refine ⟨List.replicate (s.max_payload_size.toNat
          - (decodeCall P audio_data length s).stored.length - 1) 0, ?_⟩
        rw [List.drop_replicate]
        have : s.max_payload_size.toNat - (decodeCall P audio_data length s).stored.length
            = (s.max_payload_size.toNat
              - (decodeCall P audio_data length s).stored.length - 1) + 1 := by omega
        rw [this, List.replicate_succ]
        simp
      · exact Or.inl hmem
    rw [hdec, if_pos hpos]
    simp only [NewStringUTF, cString_stored _ _ hz, hstr]
  refine ⟨?_, hgen, ?_⟩
  · intro hn
    rw [hdec, if_neg (not_lt.mpr hn)]
  · intro hpos hlt hascii
    refine hgen hpos (Or.inl hlt) _ ?_
    rw [takeWhile_nonzero _ hascii]
    exact decodeModifiedUtf8_ascii _ hascii

/-- C6 (amended), at a concrete input: the chunk `[0x7E, 0x41, 0x00, 0x42]` on
a session of ceiling 20 over the loop-back library returns "A". -/
theorem decode_returns_c_string_witness :
    ggwaveDecode loopbackPlatform [0x7E, 0x41, 0x00, 0x42] 4 (stateAfterInit 20)
      = .ok (some [0x41],
          afterDecode loopbackPlatform [0x7E, 0x41, 0x00, 0x42] 4 (stateAfterInit 20)) :=
  (decode_returns_c_string loopbackPlatform [0x7E, 0x41, 0x00, 0x42] 4 (stateAfterInit 20)
    (by decide) rfl (by decide) (by decide)).2.1 (by decide) (by decide) [0x41] rfl

/-! ## C8: the zero byte that ends the decoded string -/

/-- C8, at the failing input: with ceiling 1 and a decode result of 1 byte
(`0x41`), the one-byte zeroed buffer holds `0x41` after the library's store and
no zero byte at all; `NewStringUTF` finds no end inside the buffer, and
`ggwaveDecode` on such a session reads past the end of `outputBuffer`. -/
theorem full_buffer_has_no_zero_byte :
    storeBytes (List.replicate 1 0) [0x41] = some [0x41] ∧
    (0 : Byte) ∉ ([0x41] : List Byte) ∧
    cString [0x41] = none ∧
    (stateAfterInit 1).max_payload_size = 1 ∧
    (decodeCall loopbackPlatform [0x7E, 0x41] 2 (stateAfterInit 1)).ret = 1 ∧
    returned (ggwaveDecode loopbackPlatform [0x7E, 0x41] 2 (stateAfterInit 1))
      = .error Fault.readPastEnd :=
  ⟨rfl, by decide, rfl, rfl, rfl, rfl⟩

/-! ## C9: the payload size handed to the library -/

/-- C9, at the failing input: for the one-character message "é" (U+00E9),
`GetStringLength` is 1 while the buffer of `GetStringUTFChars` holds the two
bytes `0xC3 0xA9` before its terminator, so the payload the library is given,
the first byte alone, is not the whole message. -/
theorem string_length_is_not_byte_count :
    GetStringLength [0xE9] = 1 ∧
    GetStringUTFChars [0xE9] = [0xC3, 0xA9, 0] ∧
    strlen (GetStringUTFChars [0xE9]) = 2 ∧
    (GetStringUTFChars [0xE9]).take (GetStringLength [0xE9]).toNat = [0xC3] ∧
    returned (ggwaveEncode loopbackPlatform [0xE9] 1 50 (stateAfterInit 20))
      = .ok (some [0x7E, 0xC3]) :=
  ⟨rfl, rfl, rfl, rfl, rfl⟩

/-! ## C10: library instances that were created and not freed -/

/-- C10, at the failing input: two `ggwaveInit` calls in a row over the
loop-back library leave two instances that were not freed, `1` and `0`;
`g_ggwave` identifies instance 1 only, and instance 0 can no longer be freed. -/
theorem second_init_leaks_instance :
    ∃ h s, run loopbackPlatform []
        [Call.init 20 0x473B8000 5, Call.init 20 0x473B8000 5] = .ok (h, s) ∧
      s.g_ggwave = 1 ∧ liveInstances s.calls = [1, 0] ∧ s.lib = [1, 0] :=
  ⟨_, _, rfl, rfl, rfl, rfl⟩

end GgwaveBridge
